import Mathlib

/-!
Verification of the per-instance scrape core of `rds_exporter` (Go package
`basic`): datapoint selection, label construction and enrichment, the
memory-catalog lookup, the two value-acquisition strategies, and the
per-cycle orchestration in `Scrape`.

Modelling conventions:
* `time.Time` values are epoch instants modelled as `Int` (nanoseconds);
  `time.Duration` values are `Int` nanoseconds; `time.Time.Unix()` results
  are `Int` seconds.  `t.Before(u)` is `t < u`.
* `float64` metric values are modelled as `ℚ`; the Go conversion
  `int64(v)` on a `float64` truncates toward zero and is modelled by
  `goTrunc`.
* Go maps are modelled as association lists with unique keys; map lookup
  is `lookupEntry` (first match); map assignment removes the old binding
  and appends; map delete filters the binding out.
* The CloudWatch network call is a parameter
  `svc : GetMetricStatisticsInput → Except ApiError (List Datapoint)`;
  errors travel in `Except`.
* The `ch` channel and the error log are modelled as the lists of samples
  and log entries produced by a call.
-/

set_option autoImplicit false

namespace RdsBasic

/-- One CloudWatch datapoint: a timestamp and an averaged value
(`cloudwatchtypes.Datapoint`, restricted to the fields the code reads). -/
structure Datapoint where
  timestamp : Int
  average : ℚ
  deriving DecidableEq

/-- Model of `getLatestDatapoint` from `scraper.go`: single pass, `latest` starts
`nil` and is replaced exactly when `latest.Timestamp.Before(dp.Timestamp)`,
i.e. on a strictly greater timestamp. -/
def getLatestDatapoint (datapoints : List Datapoint) : Option Datapoint :=
  datapoints.foldl
    (fun latest dp =>
      match latest with
      | none => some dp
      | some l => if l.timestamp < dp.timestamp then some dp else some l)
    none

/-- Structural companion of the loop body of `getLatestDatapoint` once
`latest` is known to be non-`nil`. -/
def pickLatest (d : Datapoint) : List Datapoint → Datapoint
  | [] => d
  | dp :: rest => pickLatest (if d.timestamp < dp.timestamp then dp else d) rest

lemma getLatestDatapoint_eq_pickLatest (d : Datapoint) (l : List Datapoint) :
    getLatestDatapoint (d :: l) = some (pickLatest d l) := by
  suffices h : ∀ (l : List Datapoint) (d : Datapoint),
      List.foldl
        (fun latest dp =>
          match latest with
          | none => some dp
          | some l => if l.timestamp < dp.timestamp then some dp else some l)
        (some d) l = some (pickLatest d l) by
    simpa [getLatestDatapoint] using h l d
  intro l
  induction l with
  | nil => intro d; simp [pickLatest]
  | cons dp rest ih =>
    intro d
    by_cases hlt : d.timestamp < dp.timestamp <;>
      simp [pickLatest, hlt, ih]

lemma timestamp_le_pickLatest (d : Datapoint) (l : List Datapoint) :
    d.timestamp ≤ (pickLatest d l).timestamp := by
  induction l generalizing d with
  | nil => simp [pickLatest]
  | cons dp rest ih =>
    by_cases hlt : d.timestamp < dp.timestamp
    · have h1 : pickLatest d (dp :: rest) = pickLatest dp rest := by
        simp [pickLatest, hlt]
      rw [h1]
      exact le_of_lt (lt_of_lt_of_le hlt (ih dp))
    · have h1 : pickLatest d (dp :: rest) = pickLatest d rest := by
        simp [pickLatest, hlt]
      rw [h1]
      exact ih d

lemma pickLatest_split (l : List Datapoint) (d : Datapoint) :
    ∃ l₁ l₂, d :: l = l₁ ++ pickLatest d l :: l₂ ∧
      (∀ x ∈ l₁, x.timestamp < (pickLatest d l).timestamp) ∧
      (∀ x ∈ l₂, x.timestamp ≤ (pickLatest d l).timestamp) := by
  induction l generalizing d with
  | nil =>
    exact ⟨[], [], by simp [pickLatest], by simp, by simp⟩
  | cons dp rest ih =>
    by_cases hlt : d.timestamp < dp.timestamp
    · obtain ⟨l₁, l₂, heq, h₁, h₂⟩ := ih dp
      refine ⟨d :: l₁, l₂, ?_, ?_, ?_⟩
      · simp only [pickLatest, hlt, if_pos]
        simpa using congrArg (d :: ·) heq
      · intro x hx
        rcases List.mem_cons.mp hx with hx | hx
        · subst hx
          have : dp.timestamp ≤ (pickLatest dp rest).timestamp :=
            timestamp_le_pickLatest dp rest
          simp only [pickLatest, hlt, if_pos]
          exact lt_of_lt_of_le hlt this
        · simpa [pickLatest, hlt] using h₁ x hx
      · intro x hx
        simpa [pickLatest, hlt] using h₂ x hx
    · obtain ⟨l₁, l₂, heq, h₁, h₂⟩ := ih d
      cases l₁ with
      | nil =>
        simp only [List.nil_append] at heq
        obtain ⟨hd, hl⟩ := List.cons.inj heq
        have hp : pickLatest d (dp :: rest) = d := by
          simp [pickLatest, hlt, ← hd]
        refine ⟨[], dp :: rest, ?_, by simp, ?_⟩
        · simp [hp]
        · intro x hx
          rw [hp]
          rcases List.mem_cons.mp hx with hx | hx
          · rw [hx]; exact le_of_not_lt hlt
          · have hx2 := h₂ x (hl ▸ hx)
            rw [← hd] at hx2
            exact hx2
      | cons a t =>
        obtain ⟨hda, hrest⟩ := List.cons.inj heq
        have hpick : pickLatest d (dp :: rest) = pickLatest d rest := by
          simp [pickLatest, hlt]
        have hdlt : d.timestamp < (pickLatest d rest).timestamp := by
          have := h₁ a (by simp)
          rwa [← hda] at this
        refine ⟨d :: dp :: t, l₂, ?_, ?_, ?_⟩
        · rw [hpick]
          simpa using congrArg (fun s => d :: dp :: s) hrest
        · intro x hx
          rw [hpick]
          rcases List.mem_cons.mp hx with hx | hx
          · rw [hx]; exact hdlt
          rcases List.mem_cons.mp hx with hx | hx
          · rw [hx]; exact lt_of_le_of_lt (le_of_not_lt hlt) hdlt
          · exact h₁ x (by simp [hx])
        · intro x hx
          rw [hpick]
          exact h₂ x hx

end RdsBasic

namespace RdsBasic

/-- C1: `getLatestDatapoint` returns `none` on the empty sequence; on a
non-empty sequence it returns an entry of the sequence such that every
earlier entry has a strictly smaller timestamp and every later entry has a
timestamp not exceeding it — hence it is the entry with the greatest
timestamp, and among equal timestamps the first-encountered entry wins (a
later entry replaces the pick only on a strictly greater timestamp). -/
theorem getLatestDatapoint_spec (l : List Datapoint) :
    (l = [] → getLatestDatapoint l = none) ∧
    (l ≠ [] → ∃ d l₁ l₂, getLatestDatapoint l = some d ∧ l = l₁ ++ d :: l₂ ∧
      (∀ x ∈ l₁, x.timestamp < d.timestamp) ∧
      (∀ x ∈ l₂, x.timestamp ≤ d.timestamp)) := by
  constructor
  · rintro rfl; rfl
  · intro hne
    cases l with
    | nil => exact absurd rfl hne
    | cons d rest =>
      obtain ⟨l₁, l₂, heq, h₁, h₂⟩ := pickLatest_split rest d
      exact ⟨pickLatest d rest, l₁, l₂,
        getLatestDatapoint_eq_pickLatest d rest, heq, h₁, h₂⟩

/-- Witness for `getLatestDatapoint_spec`: instantiation at a concrete
list with a timestamp tie (the first max-timestamp entry wins). -/
theorem getLatestDatapoint_spec_witness :
    ∃ d l₁ l₂,
      getLatestDatapoint [⟨3, 10⟩, ⟨5, 20⟩, ⟨5, 30⟩] = some d ∧
      ([⟨3, 10⟩, ⟨5, 20⟩, ⟨5, 30⟩] : List Datapoint) = l₁ ++ d :: l₂ ∧
      (∀ x ∈ l₁, x.timestamp < d.timestamp) ∧
      (∀ x ∈ l₂, x.timestamp ≤ d.timestamp) :=
  (getLatestDatapoint_spec [⟨3, 10⟩, ⟨5, 20⟩, ⟨5, 30⟩]).2 (by simp)

end RdsBasic

namespace RdsBasic

/-- Lookup in a Go `map[string]β` modelled as an association list with
unique keys: the first binding for the key, if any. -/
def lookupEntry {β : Type} (k : String) : List (String × β) → Option β
  | [] => none
  | p :: rest => if p.1 = k then some p.2 else lookupEntry k rest

/-- Model of `prometheus.Labels`, a `map[string]string`. -/
abbrev LabelMap := List (String × String)

/-- Go `delete(m, n)`: remove the binding for key `n`. -/
def mapDelete (m : LabelMap) (n : String) : LabelMap :=
  match m with
  | [] => []
  | p :: rest => if p.1 = n then mapDelete rest n else p :: mapDelete rest n

/-- Go `m[n] = v`: the old binding for `n` (if any) is dropped and the new
binding appended. -/
def mapSet (m : LabelMap) (n v : String) : LabelMap :=
  mapDelete m n ++ [(n, v)]

/-- One iteration of the override loop in `NewScraper`:
`if v == "" { delete(constLabels, n) } else { constLabels[n] = v }`. -/
def applyOverride (m : LabelMap) (nv : String × String) : LabelMap :=
  if nv.2 = "" then mapDelete m nv.1 else mapSet m nv.1 nv.2

/-- The map literal `prometheus.Labels{"region": instance.Region,
"instance": instance.Instance}` in `NewScraper`. -/
def baseLabels (region inst : String) : LabelMap :=
  [("region", region), ("instance", inst)]

/-- The `constLabels` computation in `NewScraper`: the base labels, then
the override loop over `instance.Labels`. -/
def buildConstLabels (region inst : String) (overrides : LabelMap) : LabelMap :=
  overrides.foldl applyOverride (baseLabels region inst)

lemma lookupEntry_mapDelete (m : LabelMap) (k n : String) :
    lookupEntry k (mapDelete m n) = if k = n then none else lookupEntry k m := by
  induction m with
  | nil => by_cases hkn : k = n <;> simp [mapDelete, lookupEntry, hkn]
  | cons p rest ih =>
    by_cases hpn : p.1 = n
    · by_cases hkn : k = n
      · simp_all [mapDelete, lookupEntry]
      · have hnk : ¬ n = k := fun h => hkn h.symm
        simp_all [mapDelete, lookupEntry]
    · by_cases hkn : k = n <;> simp_all [mapDelete, lookupEntry]

lemma lookupEntry_append {β : Type} (l₁ l₂ : List (String × β)) (k : String) :
    lookupEntry k (l₁ ++ l₂) =
      match lookupEntry k l₁ with
      | some v => some v
      | none => lookupEntry k l₂ := by
  induction l₁ with
  | nil => simp [lookupEntry]
  | cons p rest ih =>
    by_cases hpk : p.1 = k <;> simp [lookupEntry, hpk, ih]

lemma lookupEntry_mapSet (m : LabelMap) (n v k : String) :
    lookupEntry k (mapSet m n v) = if k = n then some v else lookupEntry k m := by
  rw [mapSet, lookupEntry_append, lookupEntry_mapDelete]
  by_cases hkn : k = n
  · simp [hkn, lookupEntry]
  · have hnk : ¬ n = k := fun h => hkn h.symm
    cases h : lookupEntry k m <;> simp [hkn, hnk, lookupEntry, h]

lemma lookupEntry_applyOverride (m : LabelMap) (nv : String × String) (k : String) :
    lookupEntry k (applyOverride m nv) =
      if k = nv.1 then (if nv.2 = "" then none else some nv.2)
      else lookupEntry k m := by
  unfold applyOverride
  by_cases hv : nv.2 = ""
  · simp [hv, lookupEntry_mapDelete]
  · simp [hv, lookupEntry_mapSet]

lemma lookupEntry_eq_none_of_not_mem {β : Type} (l : List (String × β)) (k : String)
    (h : k ∉ l.map Prod.fst) : lookupEntry k l = none := by
  induction l with
  | nil => rfl
  | cons p rest ih =>
    simp only [List.map_cons, List.mem_cons] at h
    push_neg at h
    have hpk : ¬ p.1 = k := fun he => h.1 he.symm
    simp [lookupEntry, hpk, ih h.2]

lemma lookupEntry_foldl_applyOverride (ov : LabelMap) (m : LabelMap) (k : String)
    (hnd : (ov.map Prod.fst).Nodup) :
    lookupEntry k (ov.foldl applyOverride m) =
      match lookupEntry k ov with
      | some v => if v = "" then none else some v
      | none => lookupEntry k m := by
  induction ov generalizing m with
  | nil => simp [lookupEntry]
  | cons nv t ih =>
    simp only [List.map_cons, List.nodup_cons] at hnd
    obtain ⟨hn, hnd2⟩ := hnd
    rw [List.foldl_cons, ih (applyOverride m nv) hnd2]
    by_cases hk : k = nv.1
    · have ht : lookupEntry k t = none :=
        lookupEntry_eq_none_of_not_mem t k (by rw [hk]; exact hn)
      rw [ht]
      simp [lookupEntry, hk, lookupEntry_applyOverride]
    · have hk2 : ¬ nv.1 = k := fun h => hk h.symm
      cases h : lookupEntry k t <;>
        simp [lookupEntry, hk, hk2, lookupEntry_applyOverride, h]

/-- The fields of `config.Instance` read by this package (external
collaborator; interface only). -/
structure ConfigInstance where
  Region : String
  Instance : String
  Labels : LabelMap
  DisableEnhancedMetrics : Bool
  deriving DecidableEq

/-- The fields of `sessions.Instance` read by this package. -/
structure SessionsInstance where
  AllocatedStorage : Int
  InstanceClass : String
  deriving DecidableEq

/-- One entry of the metric catalog (`Metric`), restricted to the fields
the scraper reads. -/
structure Metric where
  cwName : String
  prometheusName : String
  prometheusHelp : String
  deriving DecidableEq

/-- The `Collector` fields the scraper reads: its metric catalog. -/
structure Collector where
  metrics : List Metric
  deriving DecidableEq

/-- The `Scraper` struct.  The Go field `instance` is a Lean keyword and is
rendered `instance_`; the CloudWatch client `svc` and the channel `ch` are
modelled as call parameters, not state. -/
structure Scraper where
  instance_ : ConfigInstance
  sessionInstance : SessionsInstance
  collector : Collector
  constLabels : LabelMap
  deriving DecidableEq

/-- Model of `NewScraper`: the session lookup `collector.awsConfigs.GetSession` is
an external collaborator, passed in as its result; a `nil` AWS config
(here: `none`) aborts construction and yields no scraper. -/
def NewScraper (inst : ConfigInstance) (collector : Collector)
    (sessResult : Option SessionsInstance) : Option Scraper :=
  match sessResult with
  | none => none
  | some sessInstance =>
      some { instance_ := inst
             sessionInstance := sessInstance
             collector := collector
             constLabels := buildConstLabels inst.Region inst.Instance inst.Labels }

/-- C3: lookup law for the base label set built by `NewScraper`, for any
override table with unique keys (a Go map): an empty-valued override
removes the key, a non-empty override sets it, un-overridden keys keep
their base value, and `region`/`instance` map to the instance's region and
identifier whenever not overridden. -/
theorem NewScraper_constLabels_spec (inst : ConfigInstance) (collector : Collector)
    (sess : SessionsInstance) (s : Scraper) (k : String)
    (hnd : (inst.Labels.map Prod.fst).Nodup)
    (hs : NewScraper inst collector (some sess) = some s) :
    lookupEntry k s.constLabels =
      match lookupEntry k inst.Labels with
      | some v => if v = "" then none else some v
      | none =>
          if k = "region" then some inst.Region
          else if k = "instance" then some inst.Instance
          else none := by
  have hc : s.constLabels = buildConstLabels inst.Region inst.Instance inst.Labels := by
    simp only [NewScraper, Option.some.injEq] at hs
    rw [← hs]
  rw [hc, buildConstLabels, lookupEntry_foldl_applyOverride _ _ _ hnd]
  cases h : lookupEntry k inst.Labels with
  | some v => rfl
  | none =>
      by_cases hr : k = "region"
      · simp_all [baseLabels, lookupEntry]
      · by_cases hi : k = "instance"
        · simp_all [baseLabels, lookupEntry]
        · have hr2 : ¬ "region" = k := fun h => hr h.symm
          have hi2 : ¬ "instance" = k := fun h => hi h.symm
          simp_all [baseLabels, lookupEntry]

/-- Witness for `NewScraper_constLabels_spec`: a concrete instance whose
overrides delete `region`, replace `instance` and add `env`. -/
theorem NewScraper_constLabels_spec_witness :
    (lookupEntry "region"
        (buildConstLabels "us-east-1" "db1" [("region", ""), ("instance", "alias"), ("env", "prod")]) = none) ∧
    (lookupEntry "instance"
        (buildConstLabels "us-east-1" "db1" [("region", ""), ("instance", "alias"), ("env", "prod")]) = some "alias") ∧
    (lookupEntry "env"
        (buildConstLabels "us-east-1" "db1" [("region", ""), ("instance", "alias"), ("env", "prod")]) = some "prod") := by
  refine ⟨?_, ?_, ?_⟩ <;>
    · rw [show buildConstLabels "us-east-1" "db1" [("region", ""), ("instance", "alias"), ("env", "prod")] =
          (Scraper.mk ⟨"us-east-1", "db1", [("region", ""), ("instance", "alias"), ("env", "prod")], false⟩
            ⟨0, "db.t3.micro"⟩ ⟨[]⟩
            (buildConstLabels "us-east-1" "db1" [("region", ""), ("instance", "alias"), ("env", "prod")])).constLabels from rfl]
      rw [NewScraper_constLabels_spec
        ⟨"us-east-1", "db1", [("region", ""), ("instance", "alias"), ("env", "prod")], false⟩
        ⟨[]⟩ ⟨0, "db.t3.micro"⟩ _ _ (by decide) rfl]
      decide

end RdsBasic

namespace RdsBasic

/-- Go `int64(v)` on a `float64` value: truncation toward zero — the
floor for non-negative values and the ceiling for negative ones. -/
def goTrunc (q : ℚ) : Int := if 0 ≤ q then ⌊q⌋ else ⌈q⌉

/-- The value-transform switch in `scrapeMetricFromGetMetricsStatistics`:
for `EngineUptime`, `v = float64(time.Now().Unix() - int64(v))`; every
other key passes the selected value through.  `nowUnix` is the result of
the second `time.Now().Unix()` call. -/
def transformValue (cwName : String) (nowUnix : Int) (v : ℚ) : ℚ :=
  if cwName = "EngineUptime" then ((nowUnix - goTrunc v : Int) : ℚ) else v

lemma goTrunc_intCast (n : Int) : goTrunc (n : ℚ) = n := by
  unfold goTrunc
  split <;> simp

/-- C2 counterexample: the engine-uptime transform applied to the
fractional selected value `1/2` at epoch second `100` yields
`100 - int64(1/2) = 100 - 0 = 100`, not `100 - 1/2`. -/
theorem transformValue_fractional_counterexample :
    transformValue "EngineUptime" 100 (1 / 2) ≠ (100 : ℚ) - 1 / 2 := by
  have hg : goTrunc (1 / 2 : ℚ) = 0 := by
    rw [goTrunc, if_pos (by norm_num)]
    rw [Int.floor_eq_zero_iff]
    constructor <;> norm_num
  norm_num [transformValue, hg]

/-- C2 (amended): the engine-uptime transform yields
`now − trunc(v)` where `trunc` is the Go `int64` conversion (truncation
toward zero), which equals `now − v` exactly when `v` is an integer;
every other metric key passes the selected value through unchanged. -/
theorem transformValue_spec (nowUnix : Int) (v : ℚ) (k : String) :
    transformValue "EngineUptime" nowUnix v = ((nowUnix - goTrunc v : Int) : ℚ) ∧
    (k ≠ "EngineUptime" → transformValue k nowUnix v = v) ∧
    (∀ n : Int, v = (n : ℚ) →
      transformValue "EngineUptime" nowUnix v = (nowUnix : ℚ) - v) := by
  refine ⟨by simp [transformValue], fun hk => by simp [transformValue, hk], ?_⟩
  rintro n rfl
  rw [transformValue, if_pos rfl, goTrunc_intCast]
  push_cast
  ring

/-- Witness for `transformValue_spec`: pass-through for a non-uptime key
and the exact law at an integer selected value. -/
theorem transformValue_spec_witness :
    transformValue "CPUUtilization" 100 (7 / 2) = 7 / 2 ∧
    transformValue "EngineUptime" 100 (3 : ℚ) = (100 : ℚ) - 3 :=
  ⟨(transformValue_spec 100 (7 / 2) "CPUUtilization").2.1 (by decide),
   (transformValue_spec 100 3 "EngineUptime").2.2 3 (by norm_num)⟩

/-- The enhanced-monitoring label shim in
`scrapeMetricFromGetMetricsStatistics`: applied to the cloned label map,
only when `instance.DisableEnhancedMetrics` is true; `CPUUtilization`
gains `cpu="All"` and `mode="total"`, `FreeStorageSpace` gains
`mountpoint="/rdsdbdata"`. -/
def addEnhancedLabels (disable : Bool) (cwName : String) (labels : LabelMap) : LabelMap :=
  if disable = true then
    if cwName = "CPUUtilization" then
      mapSet (mapSet labels "cpu" "All") "mode" "total"
    else if cwName = "FreeStorageSpace" then
      mapSet labels "mountpoint" "/rdsdbdata"
    else labels
  else labels

/-- C4: the synthetic labels `cpu="All"`, `mode="total"` are present
exactly for flag `true` and key `CPUUtilization`, `mountpoint="/rdsdbdata"`
exactly for flag `true` and key `FreeStorageSpace` (other keys of the map
untouched); any other flag/key combination leaves the label map unchanged. -/
theorem addEnhancedLabels_spec (disable : Bool) (cwName : String) (m : LabelMap)
    (k : String) :
    (disable = true → cwName = "CPUUtilization" →
      lookupEntry "cpu" (addEnhancedLabels disable cwName m) = some "All" ∧
      lookupEntry "mode" (addEnhancedLabels disable cwName m) = some "total" ∧
      (k ≠ "cpu" → k ≠ "mode" →
        lookupEntry k (addEnhancedLabels disable cwName m) = lookupEntry k m)) ∧
    (disable = true → cwName = "FreeStorageSpace" →
      lookupEntry "mountpoint" (addEnhancedLabels disable cwName m) = some "/rdsdbdata" ∧
      (k ≠ "mountpoint" →
        lookupEntry k (addEnhancedLabels disable cwName m) = lookupEntry k m)) ∧
    (disable = false ∨ (cwName ≠ "CPUUtilization" ∧ cwName ≠ "FreeStorageSpace") →
      addEnhancedLabels disable cwName m = m) := by
  refine ⟨?_, ?_, ?_⟩
  · rintro rfl rfl
    refine ⟨?_, ?_, fun hk1 hk2 => ?_⟩
    · simp [addEnhancedLabels, lookupEntry_mapSet]
    · simp [addEnhancedLabels, lookupEntry_mapSet]
    · simp [addEnhancedLabels, lookupEntry_mapSet, hk1, hk2]
  · rintro rfl rfl
    refine ⟨?_, fun hk => ?_⟩
    · simp [addEnhancedLabels, lookupEntry_mapSet]
    · simp [addEnhancedLabels, lookupEntry_mapSet, hk]
  · intro h
    rcases h with h | ⟨h1, h2⟩
    · simp [addEnhancedLabels, h]
    · cases disable <;> simp [addEnhancedLabels, h1, h2]

/-- Witness for `addEnhancedLabels_spec`: the CPU shim at a concrete map,
and the no-op when the flag is off. -/
theorem addEnhancedLabels_spec_witness :
    (lookupEntry "cpu" (addEnhancedLabels true "CPUUtilization" [("region", "r")]) = some "All" ∧
     lookupEntry "mode" (addEnhancedLabels true "CPUUtilization" [("region", "r")]) = some "total" ∧
     lookupEntry "region" (addEnhancedLabels true "CPUUtilization" [("region", "r")]) =
       lookupEntry "region" [("region", "r")]) ∧
    addEnhancedLabels false "CPUUtilization" [("region", "r")] = [("region", "r")] := by
  constructor
  · have h := (addEnhancedLabels_spec true "CPUUtilization" [("region", "r")] "region").1 rfl rfl
    exact ⟨h.1, h.2.1, h.2.2 (by decide) (by decide)⟩
  · exact (addEnhancedLabels_spec false "CPUUtilization" [("region", "r")] "x").2.2 (Or.inl rfl)

/-- Model of `ErrUnknownInstanceType` wrapped with the offending class
(`fmt.Errorf("%w: %s", ErrUnknownInstanceType, instance)`). -/
inductive MemoryErr where
  | unknownInstanceType (cls : String)
  deriving DecidableEq

/-- Model of `GetInstanceMaxMemory` from `instance_database.go`; the singleton
`memoryLookup` map loaded at `init` from the bundled JSON is passed
explicitly. -/
def GetInstanceMaxMemory (memoryLookup : List (String × ℚ)) (inst : String) :
    Except MemoryErr ℚ :=
  match lookupEntry inst memoryLookup with
  | some i => .ok i
  | none => .error (.unknownInstanceType inst)

/-- C5: a class present in the catalog returns its stored value exactly
with no error; an unknown class fails with the distinguished
unknown-instance-type error carrying the class, never a zero default. -/
theorem GetInstanceMaxMemory_spec (cat : List (String × ℚ)) (cls : String) :
    (∀ V, lookupEntry cls cat = some V → GetInstanceMaxMemory cat cls = .ok V) ∧
    (lookupEntry cls cat = none →
      GetInstanceMaxMemory cat cls = .error (MemoryErr.unknownInstanceType cls)) := by
  constructor
  · intro V h; simp [GetInstanceMaxMemory, h]
  · intro h; simp [GetInstanceMaxMemory, h]

/-- Witness for `GetInstanceMaxMemory_spec`: a hit and a miss against a
one-entry catalog. -/
theorem GetInstanceMaxMemory_spec_witness :
    GetInstanceMaxMemory [("db.t3.micro", 1073741824)] "db.t3.micro" = .ok 1073741824 ∧
    GetInstanceMaxMemory [("db.t3.micro", 1073741824)] "db.x" =
      .error (MemoryErr.unknownInstanceType "db.x") :=
  ⟨(GetInstanceMaxMemory_spec [("db.t3.micro", 1073741824)] "db.t3.micro").1 _ (by decide),
   (GetInstanceMaxMemory_spec [("db.t3.micro", 1073741824)] "db.x").2 (by decide)⟩

/-- A metric pushed on the `ch` channel: the arguments of
`prometheus.MustNewConstMetric(prometheus.NewDesc(name, help, nil, labels),
prometheus.GaugeValue, value)`. -/
structure Sample where
  name : String
  help : String
  labels : LabelMap
  value : ℚ
  deriving DecidableEq

/-- The constant `GBtoByte = 1e9`. -/
def GBtoByte : ℚ := 1000000000

/-- Model of `scrapeMetricSomewhere`, the computed-value strategy.  The result
carries the sample pushed on `ch` (if any) or the returned error. -/
def scrapeMetricSomewhere (memoryLookup : List (String × ℚ)) (s : Scraper)
    (metric : Metric) : Except MemoryErr (Option Sample) :=
  if metric.cwName = "TotalStorageSpace" then
    .ok (some ⟨metric.prometheusName, metric.prometheusHelp, s.constLabels,
      (s.sessionInstance.AllocatedStorage : ℚ) * GBtoByte⟩)
  else if metric.cwName = "TotalMemory" then
    match GetInstanceMaxMemory memoryLookup s.sessionInstance.InstanceClass with
    | .ok value =>
        .ok (some ⟨metric.prometheusName, metric.prometheusHelp, s.constLabels, value⟩)
    | .error e => .error e
  else
    .ok none

/-- C6: the computed-value strategy emits one sample with value
`AllocatedStorage × 1e9` for `TotalStorageSpace`; for `TotalMemory` it
emits the memory-catalog value on success and propagates the lookup error
with no sample on failure; every other key is a no-op with no error. -/
theorem scrapeMetricSomewhere_spec (cat : List (String × ℚ)) (s : Scraper)
    (metric : Metric) :
    (metric.cwName = "TotalStorageSpace" →
      scrapeMetricSomewhere cat s metric =
        .ok (some ⟨metric.prometheusName, metric.prometheusHelp, s.constLabels,
          (s.sessionInstance.AllocatedStorage : ℚ) * GBtoByte⟩)) ∧
    (metric.cwName = "TotalMemory" →
      (∀ v, GetInstanceMaxMemory cat s.sessionInstance.InstanceClass = .ok v →
        scrapeMetricSomewhere cat s metric =
          .ok (some ⟨metric.prometheusName, metric.prometheusHelp, s.constLabels, v⟩)) ∧
      (∀ e, GetInstanceMaxMemory cat s.sessionInstance.InstanceClass = .error e →
        scrapeMetricSomewhere cat s metric = .error e)) ∧
    (metric.cwName ≠ "TotalStorageSpace" → metric.cwName ≠ "TotalMemory" →
      scrapeMetricSomewhere cat s metric = .ok none) := by
  refine ⟨fun h => by simp [scrapeMetricSomewhere, h], fun h => ⟨?_, ?_⟩,
    fun h1 h2 => by simp [scrapeMetricSomewhere, h1, h2]⟩
  · intro v hv
    simp [scrapeMetricSomewhere, h, hv]
  · intro e he
    simp [scrapeMetricSomewhere, h, he]

/-- Witness for `scrapeMetricSomewhere_spec`: the storage branch at 20 GB,
the memory-lookup failure branch, and the no-op branch. -/
theorem scrapeMetricSomewhere_spec_witness :
    scrapeMetricSomewhere [] ⟨⟨"r", "i", [], false⟩, ⟨20, "db.x"⟩, ⟨[]⟩, [("region", "r")]⟩
        ⟨"TotalStorageSpace", "n", "h"⟩ =
      .ok (some ⟨"n", "h", [("region", "r")], (20 : ℚ) * GBtoByte⟩) ∧
    scrapeMetricSomewhere [] ⟨⟨"r", "i", [], false⟩, ⟨20, "db.x"⟩, ⟨[]⟩, [("region", "r")]⟩
        ⟨"TotalMemory", "n", "h"⟩ =
      .error (MemoryErr.unknownInstanceType "db.x") ∧
    scrapeMetricSomewhere [] ⟨⟨"r", "i", [], false⟩, ⟨20, "db.x"⟩, ⟨[]⟩, [("region", "r")]⟩
        ⟨"CPUUtilization", "n", "h"⟩ = .ok none :=
  ⟨(scrapeMetricSomewhere_spec [] _ ⟨"TotalStorageSpace", "n", "h"⟩).1 rfl,
   ((scrapeMetricSomewhere_spec [] _ ⟨"TotalMemory", "n", "h"⟩).2.1 rfl).2 _ rfl,
   (scrapeMetricSomewhere_spec [] _ ⟨"CPUUtilization", "n", "h"⟩).2.2 (by decide) (by decide)⟩

end RdsBasic

namespace RdsBasic

/-- The duration `time.Second` in nanoseconds. -/
def timeSecond : Int := 1000000000

/-- The package variable `Period = 60 * time.Second` (default value). -/
def Period : Int := 60 * timeSecond

/-- The package variable `Delay = 600 * time.Second`. -/
def Delay : Int := 600 * timeSecond

/-- The package variable `Range = 600 * time.Second`. -/
def Range : Int := 600 * timeSecond

/-- The expression `int32(Period.Seconds())`: `Duration.Seconds` divides nanoseconds by
1e9 (as `float64`); the `int32` conversion truncates. -/
def periodSeconds : Int := goTrunc ((Period : ℚ) / (timeSecond : ℚ))

lemma periodSeconds_eq : periodSeconds = 60 := by
  have h : ((Period : ℚ) / (timeSecond : ℚ)) = ((60 : Int) : ℚ) := by
    norm_num [Period, timeSecond]
  rw [periodSeconds, h, goTrunc_intCast]

/-- Model of `cloudwatchtypes.Dimension`. -/
structure Dimension where
  Name : String
  Value : String
  deriving DecidableEq

/-- Model of `cloudwatch.GetMetricStatisticsInput`, restricted to the fields the
code sets; times are epoch nanoseconds. -/
structure GetMetricStatisticsInput where
  EndTime : Int
  StartTime : Int
  Period : Int
  MetricName : String
  Namespace : String
  Dimensions : List Dimension
  Statistics : List String
  deriving DecidableEq

/-- An opaque CloudWatch call error. -/
structure ApiError where
  msg : String
  deriving DecidableEq

/-- The `params` built by `scrapeMetricFromGetMetricsStatistics`:
`end := now.Add(-Delay)`, `start := end.Add(-Range)`, the period in
seconds, namespace `AWS/RDS`, statistics `[Average]`, and the single
`DBInstanceIdentifier` dimension appended to the initially empty list. -/
def buildGetMetricStatisticsInput (s : Scraper) (metric : Metric) (now : Int) :
    GetMetricStatisticsInput :=
  { EndTime := now - Delay
    StartTime := (now - Delay) - Range
    Period := periodSeconds
    MetricName := metric.cwName
    Namespace := "AWS/RDS"
    Dimensions := ([] : List Dimension) ++ [⟨"DBInstanceIdentifier", s.instance_.Instance⟩]
    Statistics := ["Average"] }

/-- Model of `scrapeMetricFromGetMetricsStatistics`, the time-series strategy.  The
CloudWatch call `s.svc.GetMetricStatistics` is the parameter `svc`; `now`
is the first `time.Now()` (nanoseconds) and `nowUnix` the second
`time.Now().Unix()` (seconds) used by the engine-uptime transform.  The
result carries the sample pushed on `ch` (if any) or the returned error.
(The inner `none` branch is unreachable: `getLatestDatapoint` only returns
`none` on an empty slice, excluded by the length guard.) -/
def scrapeMetricFromGetMetricsStatistics
    (svc : GetMetricStatisticsInput → Except ApiError (List Datapoint))
    (s : Scraper) (metric : Metric) (now nowUnix : Int) :
    Except ApiError (Option Sample) :=
  let params := buildGetMetricStatisticsInput s metric now
  match svc params with
  | .error err => .error err
  | .ok datapoints =>
    if datapoints.length = 0 then .ok none
    else
      match getLatestDatapoint datapoints with
      | none => .ok none
      | some dp =>
          let v := transformValue metric.cwName nowUnix dp.average
          let customLabels :=
            addEnhancedLabels s.instance_.DisableEnhancedMetrics metric.cwName s.constLabels
          .ok (some ⟨metric.prometheusName, metric.prometheusHelp, customLabels, v⟩)

/-- C7: a successful query with zero datapoints yields no sample and no
error (a `nil` return, so nothing is logged as a failure), distinct from
the query-error case, which propagates the error, also with no sample. -/
theorem scrapeMetricFromGetMetricsStatistics_empty_spec
    (svc : GetMetricStatisticsInput → Except ApiError (List Datapoint))
    (s : Scraper) (metric : Metric) (now nowUnix : Int) :
    (svc (buildGetMetricStatisticsInput s metric now) = .ok [] →
      scrapeMetricFromGetMetricsStatistics svc s metric now nowUnix = .ok none) ∧
    (∀ e, svc (buildGetMetricStatisticsInput s metric now) = .error e →
      scrapeMetricFromGetMetricsStatistics svc s metric now nowUnix = .error e) := by
  constructor
  · intro h
    simp [scrapeMetricFromGetMetricsStatistics, h]
  · intro e h
    simp [scrapeMetricFromGetMetricsStatistics, h]

/-- Witness for `scrapeMetricFromGetMetricsStatistics_empty_spec`: an
empty response skips silently, a failing call propagates its error. -/
theorem scrapeMetricFromGetMetricsStatistics_empty_spec_witness :
    scrapeMetricFromGetMetricsStatistics (fun _ => .ok [])
      ⟨⟨"r", "i", [], false⟩, ⟨20, "c"⟩, ⟨[]⟩, []⟩ ⟨"CPUUtilization", "n", "h"⟩ 0 0 =
      .ok none ∧
    scrapeMetricFromGetMetricsStatistics (fun _ => .error ⟨"boom"⟩)
      ⟨⟨"r", "i", [], false⟩, ⟨20, "c"⟩, ⟨[]⟩, []⟩ ⟨"CPUUtilization", "n", "h"⟩ 0 0 =
      .error ⟨"boom"⟩ :=
  ⟨(scrapeMetricFromGetMetricsStatistics_empty_spec _ _ _ 0 0).1 rfl,
   (scrapeMetricFromGetMetricsStatistics_empty_spec _ _ _ 0 0).2 ⟨"boom"⟩ rfl⟩

/-- C8: the query has the fixed shape — namespace `AWS/RDS`, statistics
exactly `[Average]`, exactly one dimension `DBInstanceIdentifier` =
instance identifier, end `now − Delay`, start `end − Range`, period 60
seconds — and the strategy consults the CloudWatch client only at this
one input. -/
theorem buildGetMetricStatisticsInput_spec (s : Scraper) (metric : Metric)
    (now nowUnix : Int)
    (svc1 svc2 : GetMetricStatisticsInput → Except ApiError (List Datapoint)) :
    buildGetMetricStatisticsInput s metric now =
      { EndTime := now - Delay
        StartTime := now - Delay - Range
        Period := 60
        MetricName := metric.cwName
        Namespace := "AWS/RDS"
        Dimensions := [⟨"DBInstanceIdentifier", s.instance_.Instance⟩]
        Statistics := ["Average"] } ∧
    (svc1 (buildGetMetricStatisticsInput s metric now) =
        svc2 (buildGetMetricStatisticsInput s metric now) →
      scrapeMetricFromGetMetricsStatistics svc1 s metric now nowUnix =
        scrapeMetricFromGetMetricsStatistics svc2 s metric now nowUnix) := by
  refine ⟨by simp [buildGetMetricStatisticsInput, periodSeconds_eq], fun h => ?_⟩
  simp only [scrapeMetricFromGetMetricsStatistics, h]

/-- Witness for `buildGetMetricStatisticsInput_spec` at a concrete scraper
and metric. -/
theorem buildGetMetricStatisticsInput_spec_witness :
    buildGetMetricStatisticsInput ⟨⟨"r", "db1", [], false⟩, ⟨0, "c"⟩, ⟨[]⟩, []⟩
        ⟨"CPUUtilization", "n", "h"⟩ 0 =
      { EndTime := 0 - Delay
        StartTime := 0 - Delay - Range
        Period := 60
        MetricName := "CPUUtilization"
        Namespace := "AWS/RDS"
        Dimensions := [⟨"DBInstanceIdentifier", "db1"⟩]
        Statistics := ["Average"] } ∧
    scrapeMetricFromGetMetricsStatistics (fun _ => .ok [])
        ⟨⟨"r", "db1", [], false⟩, ⟨0, "c"⟩, ⟨[]⟩, []⟩ ⟨"CPUUtilization", "n", "h"⟩ 0 0 =
      scrapeMetricFromGetMetricsStatistics (fun _ => .ok [])
        ⟨⟨"r", "db1", [], false⟩, ⟨0, "c"⟩, ⟨[]⟩, []⟩ ⟨"CPUUtilization", "n", "h"⟩ 0 0 :=
  ⟨(buildGetMetricStatisticsInput_spec ⟨⟨"r", "db1", [], false⟩, ⟨0, "c"⟩, ⟨[]⟩, []⟩
      ⟨"CPUUtilization", "n", "h"⟩ 0 0 (fun _ => .ok []) (fun _ => .ok [])).1,
   (buildGetMetricStatisticsInput_spec ⟨⟨"r", "db1", [], false⟩, ⟨0, "c"⟩, ⟨[]⟩, []⟩
      ⟨"CPUUtilization", "n", "h"⟩ 0 0 (fun _ => .ok []) (fun _ => .ok [])).2 rfl⟩

end RdsBasic

namespace RdsBasic

/-- One per-metric log line written via
`level.Error(s.collector.l).Log("metric", metric.cwName, "error", err)`. -/
inductive LogEntry where
  | memErr (metric : String) (e : MemoryErr)
  | apiErr (metric : String) (e : ApiError)
  deriving DecidableEq

/-- The body of one per-metric goroutine in `Scrape`: run the
computed-value strategy, then the time-series strategy; each strategy's
failure is logged, never propagated, and each emitted sample goes to
`ch`.  The result is (samples pushed, log entries written). -/
def metricTask (memoryLookup : List (String × ℚ))
    (svc : GetMetricStatisticsInput → Except ApiError (List Datapoint))
    (s : Scraper) (now nowUnix : Int) (metric : Metric) :
    List Sample × List LogEntry :=
  let p1 : List Sample × List LogEntry :=
    match scrapeMetricSomewhere memoryLookup s metric with
    | .ok none => ([], [])
    | .ok (some smp) => ([smp], [])
    | .error e => ([], [.memErr metric.cwName e])
  let p2 : List Sample × List LogEntry :=
    match scrapeMetricFromGetMetricsStatistics svc s metric now nowUnix with
    | .ok none => ([], [])
    | .ok (some smp) => ([smp], [])
    | .error e => ([], [.apiErr metric.cwName e])
  (p1.1 ++ p2.1, p1.2 ++ p2.2)

/-- Model of `Scrape`: fan out one task per catalog metric and block on the
`WaitGroup` barrier until all complete (concurrency sequentialized; task
outputs collected in catalog order).  The observable result is all
samples pushed on `ch` and all log entries; no error is returned. -/
def Scrape (memoryLookup : List (String × ℚ))
    (svc : GetMetricStatisticsInput → Except ApiError (List Datapoint))
    (s : Scraper) (now nowUnix : Int) : List Sample × List LogEntry :=
  s.collector.metrics.foldl
    (fun acc metric =>
      let r := metricTask memoryLookup svc s now nowUnix metric
      (acc.1 ++ r.1, acc.2 ++ r.2))
    ([], [])

lemma Scrape_foldl_acc (memoryLookup : List (String × ℚ))
    (svc : GetMetricStatisticsInput → Except ApiError (List Datapoint))
    (s : Scraper) (now nowUnix : Int) (l : List Metric)
    (acc : List Sample × List LogEntry) :
    l.foldl (fun acc metric =>
        let r := metricTask memoryLookup svc s now nowUnix metric
        (acc.1 ++ r.1, acc.2 ++ r.2)) acc =
      (acc.1 ++ (l.map fun m => (metricTask memoryLookup svc s now nowUnix m).1).flatten,
       acc.2 ++ (l.map fun m => (metricTask memoryLookup svc s now nowUnix m).2).flatten) := by
  induction l generalizing acc with
  | nil => simp
  | cons m t ih => simp [ih]

/-- C9: `Scrape` joins the outputs of exactly one task per catalog metric
— every task's samples and logged failures appear in the result, no error
is returned, and one task's failure leaves every other task's
contribution intact.  In particular, with an always-failing CloudWatch
client every metric's task still completes and logs its failure. -/
theorem Scrape_spec (memoryLookup : List (String × ℚ))
    (svc : GetMetricStatisticsInput → Except ApiError (List Datapoint))
    (s : Scraper) (now nowUnix : Int) :
    (Scrape memoryLookup svc s now nowUnix).1 =
      (s.collector.metrics.map fun m =>
        (metricTask memoryLookup svc s now nowUnix m).1).flatten ∧
    (Scrape memoryLookup svc s now nowUnix).2 =
      (s.collector.metrics.map fun m =>
        (metricTask memoryLookup svc s now nowUnix m).2).flatten ∧
    (∀ e, (∀ q, svc q = .error e) → ∀ m ∈ s.collector.metrics,
      LogEntry.apiErr m.cwName e ∈ (Scrape memoryLookup svc s now nowUnix).2) := by
  have hfold := Scrape_foldl_acc memoryLookup svc s now nowUnix s.collector.metrics ([], [])
  refine ⟨?_, ?_, ?_⟩
  · rw [Scrape, hfold]; simp
  · rw [Scrape, hfold]; simp
  · intro e hsvc m hm
    rw [Scrape, hfold]
    simp only [List.nil_append]
    apply List.mem_flatten.mpr
    refine ⟨(metricTask memoryLookup svc s now nowUnix m).2,
      List.mem_map_of_mem _ hm, ?_⟩
    have hscrape : scrapeMetricFromGetMetricsStatistics svc s m now nowUnix = .error e := by
      simp [scrapeMetricFromGetMetricsStatistics, hsvc]
    cases hsw : scrapeMetricSomewhere memoryLookup s m with
    | ok o => cases o <;> simp [metricTask, hscrape, hsw]
    | error e2 => simp [metricTask, hscrape, hsw]

/-- Witness for `Scrape_spec`: a one-metric catalog with an always-failing
client still yields the per-metric failure log entry. -/
theorem Scrape_spec_witness :
    LogEntry.apiErr "CPUUtilization" ⟨"x"⟩ ∈
      (Scrape [] (fun _ => .error ⟨"x"⟩)
        ⟨⟨"r", "i", [], false⟩, ⟨0, "c"⟩, ⟨[⟨"CPUUtilization", "n", "h"⟩]⟩, []⟩ 0 0).2 :=
  (Scrape_spec [] (fun _ => .error ⟨"x"⟩)
      ⟨⟨"r", "i", [], false⟩, ⟨0, "c"⟩, ⟨[⟨"CPUUtilization", "n", "h"⟩]⟩, []⟩ 0 0).2.2
    ⟨"x"⟩ (fun _ => rfl) ⟨"CPUUtilization", "n", "h"⟩ (by simp)

end RdsBasic

namespace RdsBasic

/-- A heap of Go label maps; a `prometheus.Labels` value held by a struct
field is a reference (index) into it.  This models Go map aliasing, so
that the clone-before-write discipline of the time-series strategy is a
provable frame property rather than one true by construction. -/
abbrev LabelHeap := List LabelMap

/-- Dereference a label-map reference (out-of-range reads give the empty
map; the code only uses live references). -/
def heapRead (h : LabelHeap) (r : Nat) : LabelMap := h.getD r []

/-- Overwrite the map behind a reference. -/
def heapWrite (h : LabelHeap) (r : Nat) (m : LabelMap) : LabelHeap := h.set r m

/-- Model of `maps.Clone`: allocate a fresh map with the same contents and return
its reference. -/
def heapClone (h : LabelHeap) (r : Nat) : LabelHeap × Nat :=
  (h ++ [heapRead h r], h.length)

/-- In-place `m[k] = v` on the map behind reference `r`. -/
def heapMapSet (h : LabelHeap) (r : Nat) (k v : String) : LabelHeap :=
  heapWrite h r (mapSet (heapRead h r) k v)

/-- The label section of `scrapeMetricFromGetMetricsStatistics` at the Go
map level: `customLabels := maps.Clone(s.constLabels)` followed by the
enhanced-monitoring writes on `customLabels`.  Returns the heap after the
call and the reference to `customLabels`. -/
def buildCustomLabels (h : LabelHeap) (constLabelsRef : Nat)
    (disable : Bool) (cwName : String) : LabelHeap × Nat :=
  let cl := heapClone h constLabelsRef
  if disable = true then
    if cwName = "CPUUtilization" then
      (heapMapSet (heapMapSet cl.1 cl.2 "cpu" "All") cl.2 "mode" "total", cl.2)
    else if cwName = "FreeStorageSpace" then
      (heapMapSet cl.1 cl.2 "mountpoint" "/rdsdbdata", cl.2)
    else cl
  else cl

lemma heapRead_heapWrite_ne (h : LabelHeap) (i r : Nat) (m : LabelMap)
    (hne : i ≠ r) : heapRead (heapWrite h i m) r = heapRead h r := by
  unfold heapRead heapWrite
  rw [List.getD_eq_getElem?_getD, List.getD_eq_getElem?_getD,
    List.getElem?_set_ne hne]

lemma heapRead_heapMapSet_ne (h : LabelHeap) (i r : Nat) (k v : String)
    (hne : i ≠ r) : heapRead (heapMapSet h i k v) r = heapRead h r :=
  heapRead_heapWrite_ne h i r _ hne

lemma heapRead_append_lt (h : LabelHeap) (m : LabelMap) (r : Nat)
    (hr : r < h.length) : heapRead (h ++ [m]) r = heapRead h r := by
  unfold heapRead
  rw [List.getD_eq_getElem?_getD, List.getD_eq_getElem?_getD,
    List.getElem?_append_left hr]

lemma heapRead_concat_self (h : LabelHeap) (m : LabelMap) :
    heapRead (h ++ [m]) h.length = m := by
  unfold heapRead
  rw [List.getD_eq_getElem?_getD, List.getElem?_concat_length]
  rfl

lemma heapMapSet_length (h : LabelHeap) (i : Nat) (k v : String) :
    (heapMapSet h i k v).length = h.length := by
  simp [heapMapSet, heapWrite]

lemma heapRead_heapMapSet_self (h : LabelHeap) (i : Nat) (k v : String)
    (hi : i < h.length) :
    heapRead (heapMapSet h i k v) i = mapSet (heapRead h i) k v := by
  unfold heapMapSet heapWrite heapRead
  rw [List.getD_eq_getElem?_getD, List.getD_eq_getElem?_getD,
    List.getElem?_set_self hi]
  rfl

lemma buildCustomLabels_length (h : LabelHeap) (r : Nat) (d : Bool) (c : String) :
    (buildCustomLabels h r d c).1.length = h.length + 1 := by
  simp only [buildCustomLabels, heapClone]
  split_ifs <;> simp [heapMapSet_length]

lemma heapRead_buildCustomLabels (h : LabelHeap) (r : Nat) (d : Bool) (c : String)
    (hr : r < h.length) :
    heapRead (buildCustomLabels h r d c).1 r = heapRead h r := by
  have hne : h.length ≠ r := Nat.ne_of_gt hr
  have hclone := heapRead_append_lt h (heapRead h r) r hr
  simp only [buildCustomLabels, heapClone]
  split_ifs
  · rw [heapRead_heapMapSet_ne _ _ _ _ _ hne, heapRead_heapMapSet_ne _ _ _ _ _ hne]
    exact hclone
  · rw [heapRead_heapMapSet_ne _ _ _ _ _ hne]
    exact hclone
  · exact hclone
  · exact hclone

lemma heapRead_buildCustomLabels_result (h : LabelHeap) (r : Nat) (d : Bool)
    (c : String) :
    heapRead (buildCustomLabels h r d c).1 (buildCustomLabels h r d c).2 =
      addEnhancedLabels d c (heapRead h r) := by
  have h1 : heapRead (h ++ [heapRead h r]) h.length = heapRead h r :=
    heapRead_concat_self h _
  simp only [buildCustomLabels, heapClone]
  split_ifs with hd hc hf
  · rw [heapRead_heapMapSet_self _ _ _ _ (by simp [heapMapSet_length]),
      heapRead_heapMapSet_self _ _ _ _ (by simp), h1]
    simp [addEnhancedLabels, hd, hc]
  · rw [heapRead_heapMapSet_self _ _ _ _ (by simp), h1]
    simp [addEnhancedLabels, hd, hc, hf]
  · rw [h1]
    simp [addEnhancedLabels, hd, hc, hf]
  · rw [h1]
    simp [addEnhancedLabels, hd]

/-- C10: the time-series strategy never mutates the scraper's shared
`constLabels` map: one clone-then-write label construction — and any
sequence of them — leaves the map behind `constLabelsRef` unchanged,
while the returned `customLabels` reference holds exactly the pure
`addEnhancedLabels` result. -/
theorem buildCustomLabels_preserves_constLabels (h : LabelHeap) (r : Nat)
    (disable : Bool) (cwName : String) (calls : List (Bool × String))
    (hr : r < h.length) :
    heapRead (buildCustomLabels h r disable cwName).1 r = heapRead h r ∧
    heapRead (buildCustomLabels h r disable cwName).1
        (buildCustomLabels h r disable cwName).2 =
      addEnhancedLabels disable cwName (heapRead h r) ∧
    heapRead (calls.foldl (fun g c => (buildCustomLabels g r c.1 c.2).1) h) r =
      heapRead h r := by
  refine ⟨heapRead_buildCustomLabels h r disable cwName hr,
    heapRead_buildCustomLabels_result h r disable cwName, ?_⟩
  induction calls generalizing h with
  | nil => rfl
  | cons c t ih =>
    rw [List.foldl_cons]
    have hr2 : r < (buildCustomLabels h r c.1 c.2).1.length := by
      rw [buildCustomLabels_length]
      omega
    rw [ih _ hr2, heapRead_buildCustomLabels h r c.1 c.2 hr]

/-- Witness for `buildCustomLabels_preserves_constLabels`: a one-cell heap
holding the base labels, the CPU-utilization shim, and one iterated call. -/
theorem buildCustomLabels_preserves_constLabels_witness :
    heapRead (buildCustomLabels [[("region", "r")]] 0 true "CPUUtilization").1 0 =
      [("region", "r")] ∧
    heapRead (buildCustomLabels [[("region", "r")]] 0 true "CPUUtilization").1
        (buildCustomLabels [[("region", "r")]] 0 true "CPUUtilization").2 =
      addEnhancedLabels true "CPUUtilization" [("region", "r")] ∧
    heapRead (([((true : Bool), "CPUUtilization")]).foldl
        (fun g c => (buildCustomLabels g 0 c.1 c.2).1) [[("region", "r")]]) 0 =
      [("region", "r")] :=
  buildCustomLabels_preserves_constLabels [[("region", "r")]] 0 true "CPUUtilization"
    [((true : Bool), "CPUUtilization")] (by decide)

end RdsBasic
